import Mathlib

/-!
Shallow embedding of the profile analysis engine (`src/analyzer.ts`) of
pprof-to-md, together with proofs of the behavioural properties claimed in
the specification.

Modelling conventions:
* `Numeric` (JS `number | bigint`) sample values are modelled as `Int`:
  profile values are integers and `addNumeric` is exact integer addition on
  the bigint path; the lossy float path is not exercised by integral values.
* JS floating point percentages are modelled as exact rationals (`Rat`).
* JS `Map` (insertion ordered) is modelled as an association list
  (`List (String × α)`) with first-match lookup and in-place update.
* JS `Set<string>` (insertion ordered) is modelled as a duplicate-free
  `List String` with append-if-absent insertion.
* `Array.prototype.sort` (stable since ES2019) with a numeric descending
  comparator is modelled as `List.mergeSort` (stable) with the matching
  boolean relation.
-/

namespace PprofToMd

/-! ### Ordered map and ordered set primitives -/

/-- First-match lookup in an insertion-ordered association list (JS `Map.get`). -/
def mapGet (m : List (String × α)) (k : String) : Option α :=
  match m with
  | [] => none
  | (k', v) :: rest => if k' = k then some v else mapGet rest k

/-- In-place update or append (JS `Map.set`). -/
def mapSet (m : List (String × α)) (k : String) (v : α) : List (String × α) :=
  match m with
  | [] => [(k, v)]
  | (k', v') :: rest => if k' = k then (k, v) :: rest else (k', v') :: mapSet rest k v

/-- Insertion-ordered set insert (JS `Set.add`). -/
def insertSet (s : List String) (x : String) : List String :=
  if x ∈ s then s else s ++ [x]

/-! ### Data model (`src/types.ts`) -/

structure SampleType where
  type : String
  unit : String
  deriving DecidableEq, Repr

structure FunctionInfo where
  name : String
  systemName : String
  filename : String
  startLine : Nat
  deriving DecidableEq, Repr

structure LineInfo where
  line : Nat
  function : FunctionInfo
  deriving DecidableEq, Repr

structure Location where
  lines : List LineInfo
  deriving DecidableEq, Repr

structure Sample where
  stack : List Location
  values : List Int
  deriving DecidableEq, Repr

structure PeriodType where
  type : String
  unit : String
  deriving DecidableEq, Repr

structure NormalizedProfile where
  sampleTypes : List SampleType
  samples : List Sample
  durationNanos : Int
  period : Int
  periodType : Option PeriodType
  deriving Repr

structure FunctionStats where
  key : String
  name : String
  filename : String
  line : Nat
  selfValue : Int
  cumulativeValue : Int
  selfPercent : Rat
  cumulativePercent : Rat
  sampleCount : Nat
  callers : List String
  callees : List String
  deriving DecidableEq, Repr

structure Hotspot where
  key : String
  name : String
  filename : String
  line : Nat
  selfValue : Int
  cumulativeValue : Int
  selfPercent : Rat
  cumulativePercent : Rat
  sampleCount : Nat
  type : String
  callers : List String
  callees : List String
  deriving DecidableEq, Repr

structure PathNode where
  name : String
  selfPercent : Rat
  cumulativePercent : Rat
  deriving DecidableEq, Repr

structure CriticalPath where
  path : List PathNode
  cumulativePercent : Rat
  deriving DecidableEq, Repr

/-- Scalar fields of a call tree node; the recursive `children` map lives in
`CallTreeNode` because Lean structures cannot be recursive. -/
structure NodeData where
  key : String
  name : String
  filename : String
  line : Nat
  selfValue : Int
  cumulativeValue : Int
  selfPercent : Rat
  cumulativePercent : Rat
  deriving DecidableEq, Repr

inductive CallTreeNode where
  | node (data : NodeData) (children : List (String × CallTreeNode))
  deriving Repr

def CallTreeNode.data : CallTreeNode → NodeData
  | .node d _ => d

def CallTreeNode.children : CallTreeNode → List (String × CallTreeNode)
  | .node _ c => c

def CallTreeNode.cumulativeValue (t : CallTreeNode) : Int :=
  t.data.cumulativeValue

def CallTreeNode.selfValue (t : CallTreeNode) : Int :=
  t.data.selfValue

def CallTreeNode.cumulativePercent (t : CallTreeNode) : Rat :=
  t.data.cumulativePercent

def CallTreeNode.selfPercent (t : CallTreeNode) : Rat :=
  t.data.selfPercent

/-! ### Numeric helper -/

/-- `(toNum value / toNum total) * 100` computed exactly in `Rat`. -/
def percentOf (value : Int) (total : Int) : Rat :=
  ((value : Rat) / (total : Rat)) * 100

/-! ### Statistics aggregator (`aggregateFunctionStats`) -/

/-- The identity key `` `${fn.name}@${fn.filename}:${line}` ``. -/
def statKey (fn : FunctionInfo) (line : Nat) : String :=
  fn.name ++ "@" ++ fn.filename ++ ":" ++ toString line

/-- Fresh row created by `getOrCreateStats` (`line || fn.startLine` selects
`startLine` exactly when `line` is the falsy `0`). -/
def newStats (fn : FunctionInfo) (line : Nat) : FunctionStats :=
  { key := statKey fn line
    name := fn.name
    filename := fn.filename
    line := if line = 0 then fn.startLine else line
    selfValue := 0
    cumulativeValue := 0
    selfPercent := 0
    cumulativePercent := 0
    sampleCount := 0
    callers := []
    callees := [] }

abbrev StatsMap := List (String × FunctionStats)

/-- Location at index `i` of a stack (in-range in every use). -/
def stackGet (stack : List Location) (i : Nat) : Location :=
  stack.getD i { lines := [] }

/-- `for (const callerLine of callerLoc.lines) fnStats.callers.add(...)`. -/
def addCallerNames (s : FunctionStats) (ls : List LineInfo) : FunctionStats :=
  ls.foldl (fun s callerLine => { s with callers := insertSet s.callers callerLine.function.name }) s

/-- `for (const calleeLine of calleeLoc.lines) fnStats.callees.add(...)`. -/
def addCalleeNames (s : FunctionStats) (ls : List LineInfo) : FunctionStats :=
  ls.foldl (fun s calleeLine => { s with callees := insertSet s.callees calleeLine.function.name }) s

/-- Body of the innermost loop of `aggregateFunctionStats`: processing of one
`lineInfo` of the location at stack index `i`, threading the stats map and the
per-sample `seenInStack` dedup set. -/
def updateLine (stack : List Location) (value : Int) (i : Nat)
    (acc : StatsMap × List String) (lineInfo : LineInfo) : StatsMap × List String :=
  let stats := acc.1
  let seen := acc.2
  let fn := lineInfo.function
  let key := statKey fn lineInfo.line
  let s0 := (mapGet stats key).getD (newStats fn lineInfo.line)
  -- Self time: only count for leaf (first location in stack)
  let s1 := if i = 0 then { s0 with selfValue := s0.selfValue + value } else s0
  -- Cumulative: count once per sample
  let s2 := if key ∈ seen then s1 else
    { s1 with cumulativeValue := s1.cumulativeValue + value, sampleCount := s1.sampleCount + 1 }
  let seen2 := if key ∈ seen then seen else seen ++ [key]
  -- Track callers and callees
  let s3 := if i + 1 < stack.length then addCallerNames s2 (stackGet stack (i + 1)).lines else s2
  let s4 := if 0 < i then addCalleeNames s3 (stackGet stack (i - 1)).lines else s3
  (mapSet stats key s4, seen2)

/-- Processing of one sample with non-zero selected `value`: the walk over
stack positions `0 ≤ i < stack.length`, leaf first. -/
def processSample (stack : List Location) (value : Int) (stats : StatsMap) : StatsMap :=
  ((List.range stack.length).foldl
    (fun acc i => (stackGet stack i).lines.foldl (updateLine stack value i) acc)
    (stats, ([] : List String))).1

/-- Percentage pass at the end of `aggregateFunctionStats`. -/
def withPercents (totalValue : Int) (stats : StatsMap) : StatsMap :=
  stats.map (fun p =>
    (p.1, { p.2 with
      selfPercent := percentOf p.2.selfValue totalValue
      cumulativePercent := percentOf p.2.cumulativeValue totalValue }))

def aggregateFunctionStats (profile : NormalizedProfile) (sampleTypeIndex : Nat)
    (totalValue : Int) : StatsMap :=
  let stats := profile.samples.foldl
    (fun st sample =>
      let value := sample.values.getD sampleTypeIndex 0
      if value = 0 then st else processSample sample.stack value st)
    ([] : StatsMap)
  withPercents totalValue stats

/-! ### Call tree builder (`buildCallTree`) -/

def createEmptyNode (name : String) : CallTreeNode :=
  .node
    { key := name
      name := name
      filename := ""
      line := 0
      selfValue := 0
      cumulativeValue := 0
      selfPercent := 0
      cumulativePercent := 0 } []

/-- Fresh tree node for a frame (`line || fn.startLine` as in the source). -/
def newTreeData (lineInfo : LineInfo) : NodeData :=
  { key := statKey lineInfo.function lineInfo.line
    name := lineInfo.function.name
    filename := lineInfo.function.filename
    line := if lineInfo.line = 0 then lineInfo.function.startLine else lineInfo.line
    selfValue := 0
    cumulativeValue := 0
    selfPercent := 0
    cumulativePercent := 0 }

/-- The frame sequence one sample walks: locations root-to-leaf (reverse of
storage order), each location's inline frames in order. -/
def framesOf (stack : List Location) : List LineInfo :=
  stack.reverse.foldr (fun loc acc => loc.lines ++ acc) []

/-- One sample's walk of `buildCallTree`: descend from `node` along `frames`,
fetch-or-create each child and add `value` to its `cumulativeValue`; the final
node reached (the leaf; `node` itself for an empty frame list) receives the
sample's `value` as `selfValue`. -/
def insertPath (value : Int) : CallTreeNode → List LineInfo → CallTreeNode
  | .node d ch, [] => .node { d with selfValue := d.selfValue + value } ch
  | .node d ch, lineInfo :: rest =>
      let key := statKey lineInfo.function lineInfo.line
      let child := (mapGet ch key).getD (.node (newTreeData lineInfo) [])
      let child : CallTreeNode := .node
        { child.data with cumulativeValue := child.data.cumulativeValue + value }
        child.children
      let child := insertPath value child rest
      .node d (mapSet ch key child)

mutual

/-- `calculateTreePercentages`, returning the updated tree. -/
def calculateTreePercentages (t : CallTreeNode) (totalValue : Int) : CallTreeNode :=
  match t with
  | .node d ch =>
      .node
        { d with
          selfPercent := percentOf d.selfValue totalValue
          cumulativePercent := percentOf d.cumulativeValue totalValue }
        (calculateTreePercentagesList ch totalValue)

def calculateTreePercentagesList (l : List (String × CallTreeNode)) (totalValue : Int) :
    List (String × CallTreeNode) :=
  match l with
  | [] => []
  | (k, c) :: rest => (k, calculateTreePercentages c totalValue) :: calculateTreePercentagesList rest totalValue

end

def buildCallTree (profile : NormalizedProfile) (sampleTypeIndex : Nat)
    (totalValue : Int) : CallTreeNode :=
  let root := match createEmptyNode "(root)" with
    | .node d ch => CallTreeNode.node { d with cumulativeValue := totalValue, cumulativePercent := 100 } ch
  let root := profile.samples.foldl
    (fun r sample =>
      let value := sample.values.getD sampleTypeIndex 0
      if value = 0 then r else insertPath value r (framesOf sample.stack))
    root
  calculateTreePercentages root totalValue

/-! ### Hotspot ranker (`identifyHotspots`) -/

def toHotspot (stats : FunctionStats) : Hotspot :=
  { key := stats.key
    name := stats.name
    filename := stats.filename
    line := stats.line
    selfValue := stats.selfValue
    cumulativeValue := stats.cumulativeValue
    selfPercent := stats.selfPercent
    cumulativePercent := stats.cumulativePercent
    sampleCount := stats.sampleCount
    type := "self"
    callers := stats.callers
    callees := stats.callees }

/-- Rows with `selfPercent >= threshold * 100`, in map iteration order, mapped
to hotspots and stably sorted by `selfPercent` descending. -/
def identifyHotspots (functionStats : StatsMap) (threshold : Rat) : List Hotspot :=
  let hotspots := ((functionStats.map (fun p => p.2)).filter
    (fun stats => threshold * 100 ≤ stats.selfPercent)).map toHotspot
  hotspots.mergeSort (fun a b => decide (b.selfPercent ≤ a.selfPercent))

/-! ### Critical path extractor (`extractCriticalPaths`) -/

/-- Children values sorted by `cumulativeValue` descending
(`Array.from(children.values()).sort((a, b) => toNum(b.cumulativeValue) - toNum(a.cumulativeValue))`). -/
def sortChildren (ch : List (String × CallTreeNode)) : List CallTreeNode :=
  (ch.map (fun p => p.2)).mergeSort (fun a b => decide (b.cumulativeValue ≤ a.cumulativeValue))

theorem sizeOf_map_snd_le (ch : List (String × CallTreeNode)) :
    sizeOf (ch.map (fun p => p.2)) ≤ sizeOf ch := by
  induction ch with
  | nil => simp
  | cons p rest ih =>
      cases p with
      | mk k v =>
          simp only [List.map_cons, List.cons.sizeOf_spec, Prod.mk.sizeOf_spec]
          omega

theorem sizeOf_sortChildren_lt (n : CallTreeNode) :
    sizeOf (sortChildren n.children) < sizeOf n := by
  cases n with
  | node d ch =>
      have hperm := List.mergeSort_perm (ch.map (fun p => p.2))
        (fun a b => decide (b.cumulativeValue ≤ a.cumulativeValue))
      have hsz : sizeOf (sortChildren ch) = sizeOf (ch.map (fun p => p.2)) := by
        exact List.Perm.sizeOf_eq_sizeOf hperm
      have hle := sizeOf_map_snd_le ch
      have hn : sizeOf ch < sizeOf (CallTreeNode.node d ch) := by
        simp only [CallTreeNode.node.sizeOf_spec]
        omega
      simp only [CallTreeNode.children]
      omega

mutual

/-- The recursive `traverse` closure of `extractCriticalPaths`.  The mutable
`paths` array is threaded as explicit state; `cumulativePercent` is the branch
anchor. -/
def traverse (maxPaths : Nat) (n : CallTreeNode) (currentPath : List PathNode)
    (cumulativePercent : Rat) (paths : List CriticalPath) : List CriticalPath :=
  let newPath := currentPath ++
    [{ name := n.data.name
       selfPercent := n.data.selfPercent
       cumulativePercent := n.data.cumulativePercent }]
  match h : n.children with
  | [] =>
      -- Leaf node - record path
      paths ++ [{ path := newPath, cumulativePercent := cumulativePercent }]
  | _ :: _ =>
      match hs : sortChildren n.children with
      | [] =>
          -- unreachable: sorting a non-empty children list is non-empty
          paths
      | hottestChild :: rest =>
          -- Only follow the hottest child for critical path
          let paths1 := traverse maxPaths hottestChild newPath cumulativePercent paths
          -- Also record paths for other significant children; the source loop
          -- exits when the soft cap is reached, which is equivalent to skipping
          -- the remaining children because the path list never shrinks.
          traverseOthers maxPaths rest newPath paths1
termination_by sizeOf n
decreasing_by
  all_goals
    have h1 := sizeOf_sortChildren_lt n
    rw [hs] at h1
    simp only [List.cons.sizeOf_spec] at h1
    omega

/-- The `for (let i = 1; …)` loop over the non-hottest sorted children. -/
def traverseOthers (maxPaths : Nat) (children : List CallTreeNode)
    (newPath : List PathNode) (paths : List CriticalPath) : List CriticalPath :=
  match children with
  | [] => paths
  | child :: rest =>
      if paths.length < maxPaths * 2 then
        if (5 : Rat) ≤ child.cumulativePercent then
          traverseOthers maxPaths rest newPath
            (traverse maxPaths child newPath child.cumulativePercent paths)
        else
          traverseOthers maxPaths rest newPath paths
      else
        traverseOthers maxPaths rest newPath paths
termination_by sizeOf children
decreasing_by
  all_goals
    simp only [List.cons.sizeOf_spec]
    omega

end

def extractCriticalPaths (callTree : CallTreeNode) (maxPaths : Nat) : List CriticalPath :=
  let sortedRootChildren := sortChildren callTree.children
  let paths := (sortedRootChildren.take maxPaths).foldl
    (fun ps child => traverse maxPaths child [] child.cumulativePercent ps) []
  ((paths.mergeSort (fun a b => decide (b.cumulativePercent ≤ a.cumulativePercent))).take maxPaths)

/-! ### Value formatting (`formatValue`) -/

/-- Floor of the base-2 logarithm, computed with structural fuel (the fuel
argument only bounds the recursion depth; `natLog2 n = Nat.log2 n`). -/
def log2fuel : Nat → Nat → Nat
  | 0, _ => 0
  | fuel + 1, n => if n ≥ 2 then log2fuel fuel (n / 2) + 1 else 0

def natLog2 (n : Nat) : Nat := log2fuel n n

/-- Round the quotient `n / d` to the nearest integer, ties to even — the
IEEE 754 default rounding used when a binary64 result is produced. -/
def roundHalfEven (n d : Nat) : Nat :=
  let q := n / d
  let r := n % d
  if 2 * r < d then q
  else if d < 2 * r then q + 1
  else if q % 2 = 0 then q else q + 1

/-- JS `` `${(value / divisor).toFixed(2)}` `` for an integer `value` and a
positive integer `divisor`, following the source pipeline exactly: the exact
quotient is first rounded to the nearest binary64 double (53-bit significand
`m` scaled by `2^(e-52)`, round half to even; the quotients produced by
`formatValue` lie well inside the normal range), and the resulting double is
rendered by the ECMAScript `toFixed(2)` algorithm — the integer `n` closest to
`x * 100`, ties towards the larger `n`, with exactly two decimal places.  For
example `toFixed2 1005 1000 = "1.00"` (the double below `1.005`), matching
`(1005/1000).toFixed(2)` in JS, and `toFixed2 1500 1000 = "1.50"`. -/
def toFixed2 (value : Int) (divisor : Nat) : String :=
  let s := if value < 0 then "-" else ""
  let a := value.natAbs
  let b := divisor
  if a = 0 ∨ b = 0 then s ++ "0.00" else
    let e : Int := (natLog2 (a * 2 ^ 64 / b) : Int) - 64
    let m := if 0 ≤ (52 : Int) - e then roundHalfEven (a * 2 ^ ((52 - e).toNat)) b
      else roundHalfEven a (b * 2 ^ ((e - 52).toNat))
    let n := if 0 ≤ (52 : Int) - e then
        (200 * m + 2 ^ ((52 - e).toNat)) / (2 * 2 ^ ((52 - e).toNat))
      else 100 * (m * 2 ^ ((e - 52).toNat))
    s ++ toString (n / 100) ++ "." ++ (if n % 100 < 10 then "0" else "") ++ toString (n % 100)

/-- `unit.toLowerCase()` modelled character-wise (ASCII lowering, which is all
the comparisons against `"nanoseconds"`, `"ns"`, `"bytes"`, `"count"`,
`"samples"` need). -/
def strToLower (s : String) : String :=
  ⟨s.data.map Char.toLower⟩

def formatValue (value : Int) (unit : String) : String :=
  let num := value
  let lowerUnit := strToLower unit
  if lowerUnit = "nanoseconds" ∨ lowerUnit = "ns" then
    if num ≥ 1000000000 then toFixed2 num 1000000000 ++ "s"
    else if num ≥ 1000000 then toFixed2 num 1000000 ++ "ms"
    else if num ≥ 1000 then toFixed2 num 1000 ++ "µs"
    else toString num ++ "ns"
  else if lowerUnit = "bytes" then
    if num ≥ 1000000000 then toFixed2 num 1000000000 ++ " GB"
    else if num ≥ 1000000 then toFixed2 num 1000000 ++ " MB"
    else if num ≥ 1000 then toFixed2 num 1000 ++ " KB"
    else toString num ++ " B"
  else if lowerUnit = "count" ∨ lowerUnit = "samples" then
    if num ≥ 1000000 then toFixed2 num 1000000 ++ "M"
    else if num ≥ 1000 then toFixed2 num 1000 ++ "K"
    else toString num
  else
    toString num ++ " " ++ unit

/-! ### Analysis orchestrator (`analyzeProfile`) -/

structure AnalyzeOptions where
  sampleTypeIndex : Option Int := none
  hotspotThreshold : Option Rat := none

structure AnalysisResult where
  sampleType : SampleType
  totalValue : Int
  totalSamples : Nat
  functionStats : StatsMap
  callTree : CallTreeNode
  hotspots : List Hotspot
  criticalPaths : List CriticalPath
  durationNanos : Int
  period : Int
  periodType : Option PeriodType

/-- The index actually used by `analyzeProfile` (`sampleTypeIndex = 0` default). -/
def resolvedIndex (options : AnalyzeOptions) : Int :=
  options.sampleTypeIndex.getD 0

/-- `profile.sampleTypes[i]` exists exactly for integer `0 ≤ i < length`. -/
def validIndex (profile : NormalizedProfile) (i : Int) : Prop :=
  0 ≤ i ∧ i < (profile.sampleTypes.length : Int)

instance (profile : NormalizedProfile) (i : Int) : Decidable (validIndex profile i) :=
  inferInstanceAs (Decidable (_ ∧ _))

/-- `totalValue`: sum of the selected column over every sample. -/
def computeTotalValue (profile : NormalizedProfile) (idx : Nat) : Int :=
  profile.samples.foldl (fun acc sample => acc + sample.values.getD idx 0) 0

def analyzeProfile (profile : NormalizedProfile) (options : AnalyzeOptions) :
    Except String AnalysisResult :=
  let sampleTypeIndex := resolvedIndex options
  let hotspotThreshold := options.hotspotThreshold.getD (1 / 100)
  if validIndex profile sampleTypeIndex then
    let idx := sampleTypeIndex.toNat
    let sampleType := profile.sampleTypes.getD idx { type := "", unit := "" }
    let totalValue := computeTotalValue profile idx
    if totalValue = 0 then
      Except.ok
        { sampleType := sampleType
          totalValue := 0
          totalSamples := profile.samples.length
          functionStats := []
          callTree := createEmptyNode "(root)"
          hotspots := []
          criticalPaths := []
          durationNanos := profile.durationNanos
          period := profile.period
          periodType := profile.periodType }
    else
      let functionStats := aggregateFunctionStats profile idx totalValue
      let callTree := buildCallTree profile idx totalValue
      let hotspots := identifyHotspots functionStats hotspotThreshold
      let criticalPaths := extractCriticalPaths callTree 5
      Except.ok
        { sampleType := sampleType
          totalValue := totalValue
          totalSamples := profile.samples.length
          functionStats := functionStats
          callTree := callTree
          hotspots := hotspots
          criticalPaths := criticalPaths
          durationNanos := profile.durationNanos
          period := profile.period
          periodType := profile.periodType }
  else
    Except.error ("Sample type index " ++ toString sampleTypeIndex ++ " not found")

/-! ### Row projections and sums over the stats map -/

/-- Sum of `selfValue` over all rows of a stats map. -/
def sumSelf (m : StatsMap) : Int :=
  (m.map (fun p => p.2.selfValue)).sum

def rowSelf (m : StatsMap) (k : String) : Int :=
  ((mapGet m k).map (fun s => s.selfValue)).getD 0

def rowCumulative (m : StatsMap) (k : String) : Int :=
  ((mapGet m k).map (fun s => s.cumulativeValue)).getD 0

def rowCount (m : StatsMap) (k : String) : Nat :=
  ((mapGet m k).map (fun s => s.sampleCount)).getD 0

/-- Frames of the leaf (innermost) location of a stack; empty for an empty stack. -/
def leafLines (stack : List Location) : List LineInfo :=
  (stackGet stack 0).lines

/-! ### Concrete example profiles -/

def exFn (name : String) : FunctionInfo :=
  { name := name, systemName := "", filename := "f.ts", startLine := 1 }

def exLoc (name : String) (line : Nat) : Location :=
  { lines := [{ line := line, function := exFn name }] }

def exSampleType : SampleType := { type := "samples", unit := "count" }

/-- One sample of value 10 whose leaf location carries two inlined frames. -/
def exProfileInlined : NormalizedProfile :=
  { sampleTypes := [exSampleType]
    samples := [{ stack := [{ lines := [{ line := 5, function := exFn "inlA" },
                                        { line := 6, function := exFn "inlB" }] }]
                  values := [10] }]
    durationNanos := 0, period := 0, periodType := none }

/-- A profile with no samples at all (degenerate zero total). -/
def exProfileEmpty : NormalizedProfile :=
  { sampleTypes := [exSampleType], samples := [], durationNanos := 0, period := 0, periodType := none }

/-- A profile that declares no measurement kinds at all. -/
def exProfileNoTypes : NormalizedProfile :=
  { sampleTypes := [], samples := [], durationNanos := 0, period := 0, periodType := none }

/-- One sample with stack `[A, A, B]` (A at the leaf, appearing twice), value 50. -/
def exProfileRecursion : NormalizedProfile :=
  { sampleTypes := [exSampleType]
    samples := [{ stack := [exLoc "A" 10, exLoc "A" 10, exLoc "B" 20], values := [50] }]
    durationNanos := 0, period := 0, periodType := none }

/-- Two samples, stacks `[X, A]` and `[X, B]` with index 0 the leaf, value 10 each. -/
def exProfileXLeaf : NormalizedProfile :=
  { sampleTypes := [exSampleType]
    samples := [{ stack := [exLoc "X" 1, exLoc "A" 2], values := [10] },
                { stack := [exLoc "X" 1, exLoc "B" 3], values := [10] }]
    durationNanos := 0, period := 0, periodType := none }

/-- Two samples, stacks `[A, X]` and `[B, X]` with index 0 the leaf, value 10 each:
`X` is the shared outermost caller. -/
def exProfileXRoot : NormalizedProfile :=
  { sampleTypes := [exSampleType]
    samples := [{ stack := [exLoc "A" 2, exLoc "X" 1], values := [10] },
                { stack := [exLoc "B" 3, exLoc "X" 1], values := [10] }]
    durationNanos := 0, period := 0, periodType := none }

/-- Leaf node `L` of the critical-path scenario (cumulative 30, percent 30). -/
def exNodeL : CallTreeNode :=
  .node { key := "L", name := "L", filename := "", line := 0, selfValue := 30,
          cumulativeValue := 30, selfPercent := 30, cumulativePercent := 30 } []

/-- Childless node `P` with cumulativePercent 70. -/
def exNodeP : CallTreeNode :=
  .node { key := "P", name := "P", filename := "", line := 0, selfValue := 70,
          cumulativeValue := 70, selfPercent := 70, cumulativePercent := 70 } []

/-- Node `Q` with cumulativePercent 30 and single leaf child `L`. -/
def exNodeQ : CallTreeNode :=
  .node { key := "Q", name := "Q", filename := "", line := 0, selfValue := 0,
          cumulativeValue := 30, selfPercent := 0, cumulativePercent := 30 } [("L", exNodeL)]

/-- Root with children `P` (70%, childless) and `Q` (30%, one leaf child `L`). -/
def exRootPQ : CallTreeNode :=
  .node { key := "(root)", name := "(root)", filename := "", line := 0, selfValue := 0,
          cumulativeValue := 100, selfPercent := 0, cumulativePercent := 100 }
    [("P", exNodeP), ("Q", exNodeQ)]

/-- The `PathNode` projection of a tree node appended to the current path by
`traverse`. -/
def pathNodeOf (n : CallTreeNode) : PathNode :=
  { name := n.data.name
    selfPercent := n.data.selfPercent
    cumulativePercent := n.data.cumulativePercent }

/-- Concrete stats rows used to witness the hotspot ordering claim. -/
def exStatsA : FunctionStats :=
  { key := "a", name := "a", filename := "", line := 0, selfValue := 10, cumulativeValue := 10,
    selfPercent := 50, cumulativePercent := 50, sampleCount := 1, callers := [], callees := [] }

def exStatsB : FunctionStats :=
  { key := "b", name := "b", filename := "", line := 0, selfValue := 6, cumulativeValue := 6,
    selfPercent := 30, cumulativePercent := 30, sampleCount := 1, callers := [], callees := [] }

def exStatsMap : StatsMap := [("a", exStatsA), ("b", exStatsB)]

/-- Default hotspot used only as the out-of-range default of `List.getD`. -/
def defHotspot : Hotspot :=
  { key := "", name := "", filename := "", line := 0, selfValue := 0, cumulativeValue := 0,
    selfPercent := 0, cumulativePercent := 0, sampleCount := 0, type := "self",
    callers := [], callees := [] }

/-! ### Helper lemmas: ordered map operations -/

theorem mapGet_mapSet_self (m : List (String × α)) (k : String) (v : α) :
    mapGet (mapSet m k v) k = some v := by
  induction m with
  | nil => simp [mapGet, mapSet]
  | cons p rest ih =>
      by_cases h : p.1 = k
      · simp [mapGet, mapSet, h]
      · simp [mapGet, mapSet, h, ih]

theorem mapGet_mapSet_ne (m : List (String × α)) (k k' : String) (v : α) (h : k' ≠ k) :
    mapGet (mapSet m k v) k' = mapGet m k' := by
  induction m with
  | nil => simp [mapGet, mapSet, Ne.symm h]
  | cons p rest ih =>
      obtain ⟨k0, v0⟩ := p
      by_cases hp : k0 = k
      · subst hp
        simp [mapGet, mapSet, Ne.symm h]
      · by_cases hp' : k0 = k'
        · simp [mapGet, mapSet, hp, hp', h]
        · simp [mapGet, mapSet, hp, hp', ih]

theorem sumSelf_mapSet (m : StatsMap) (k : String) (v : FunctionStats) :
    sumSelf (mapSet m k v) = sumSelf m + v.selfValue - rowSelf m k := by
  induction m with
  | nil => simp [sumSelf, mapSet, rowSelf, mapGet]
  | cons p rest ih =>
      obtain ⟨k0, s0⟩ := p
      by_cases hp : k0 = k
      · subst hp
        simp [sumSelf, mapSet, rowSelf, mapGet]
        omega
      · simp [sumSelf, mapSet, rowSelf, mapGet, hp] at ih ⊢
        omega

/-- Fold preservation of an invariant. -/
theorem foldl_inv {α β : Type} (P : α → Prop) (f : α → β → α) (l : List β) (a : α)
    (h : P a) (hf : ∀ a b, b ∈ l → P a → P (f a b)) : P (l.foldl f a) := by
  induction l generalizing a with
  | nil => exact h
  | cons x xs ih =>
      exact ih (f a x) (hf a x (by simp) h) (fun a' b hb ha' => hf a' b (by simp [hb]) ha')

/-! ### Helper lemmas: the aggregator walk -/

@[simp] theorem addCallerNames_selfValue (ls : List LineInfo) (s : FunctionStats) :
    (addCallerNames s ls).selfValue = s.selfValue := by
  induction ls generalizing s with
  | nil => rfl
  | cons x xs ih => simpa [addCallerNames, List.foldl_cons] using ih _

@[simp] theorem addCallerNames_cumulativeValue (ls : List LineInfo) (s : FunctionStats) :
    (addCallerNames s ls).cumulativeValue = s.cumulativeValue := by
  induction ls generalizing s with
  | nil => rfl
  | cons x xs ih => simpa [addCallerNames, List.foldl_cons] using ih _

@[simp] theorem addCallerNames_sampleCount (ls : List LineInfo) (s : FunctionStats) :
    (addCallerNames s ls).sampleCount = s.sampleCount := by
  induction ls generalizing s with
  | nil => rfl
  | cons x xs ih => simpa [addCallerNames, List.foldl_cons] using ih _

@[simp] theorem addCalleeNames_selfValue (ls : List LineInfo) (s : FunctionStats) :
    (addCalleeNames s ls).selfValue = s.selfValue := by
  induction ls generalizing s with
  | nil => rfl
  | cons x xs ih => simpa [addCalleeNames, List.foldl_cons] using ih _

@[simp] theorem addCalleeNames_cumulativeValue (ls : List LineInfo) (s : FunctionStats) :
    (addCalleeNames s ls).cumulativeValue = s.cumulativeValue := by
  induction ls generalizing s with
  | nil => rfl
  | cons x xs ih => simpa [addCalleeNames, List.foldl_cons] using ih _

@[simp] theorem addCalleeNames_sampleCount (ls : List LineInfo) (s : FunctionStats) :
    (addCalleeNames s ls).sampleCount = s.sampleCount := by
  induction ls generalizing s with
  | nil => rfl
  | cons x xs ih => simpa [addCalleeNames, List.foldl_cons] using ih _

/-- Characterization of one inner-loop step of the aggregator: the map is
updated at exactly the frame's identity key, `selfValue` grows by `value` only
at the leaf position, and `cumulativeValue`/`sampleCount` grow only when the
key was not yet seen within the current sample. -/
theorem updateLine_row (stack : List Location) (value : Int) (i : Nat)
    (acc : StatsMap × List String) (li : LineInfo) :
    ∃ s4 : FunctionStats,
      (updateLine stack value i acc li).1 = mapSet acc.1 (statKey li.function li.line) s4 ∧
      s4.selfValue = rowSelf acc.1 (statKey li.function li.line) + (if i = 0 then value else 0) ∧
      s4.cumulativeValue = rowCumulative acc.1 (statKey li.function li.line) +
        (if statKey li.function li.line ∈ acc.2 then 0 else value) ∧
      s4.sampleCount = rowCount acc.1 (statKey li.function li.line) +
        (if statKey li.function li.line ∈ acc.2 then 0 else 1) ∧
      (updateLine stack value i acc li).2 =
        (if statKey li.function li.line ∈ acc.2 then acc.2 else acc.2 ++ [statKey li.function li.line]) := by
  refine ⟨_, rfl, ?_, ?_, ?_, rfl⟩ <;>
    · cases i with
      | zero =>
          by_cases hseen : statKey li.function li.line ∈ acc.2 <;>
            by_cases hc1 : 0 + 1 < stack.length <;>
            cases hg : mapGet acc.1 (statKey li.function li.line) <;>
            simp [hseen, hc1, hg, rowSelf, rowCumulative, rowCount, newStats]
      | succ j =>
          by_cases hseen : statKey li.function li.line ∈ acc.2 <;>
            by_cases hc1 : j + 1 + 1 < stack.length <;>
            cases hg : mapGet acc.1 (statKey li.function li.line) <;>
            simp [hseen, hc1, hg, rowSelf, rowCumulative, rowCount, newStats]

theorem updateLine_sumSelf (stack : List Location) (value : Int) (i : Nat)
    (acc : StatsMap × List String) (li : LineInfo) :
    sumSelf (updateLine stack value i acc li).1 = sumSelf acc.1 + (if i = 0 then value else 0) := by
  obtain ⟨s4, h1, h2, -, -, -⟩ := updateLine_row stack value i acc li
  have hrow : rowSelf acc.1 (statKey li.function li.line) =
      ((mapGet acc.1 (statKey li.function li.line)).map (fun s => s.selfValue)).getD 0 := rfl
  rw [h1, sumSelf_mapSet, h2]
  omega

theorem linesFold_sumSelf (stack : List Location) (value : Int) (i : Nat)
    (ls : List LineInfo) (acc : StatsMap × List String) :
    sumSelf ((ls.foldl (updateLine stack value i) acc)).1 =
      sumSelf acc.1 + (ls.length : Int) * (if i = 0 then value else 0) := by
  induction ls generalizing acc with
  | nil => simp
  | cons x xs ih =>
      rw [List.foldl_cons, ih, updateLine_sumSelf]
      simp only [List.length_cons]
      push_cast
      ring

theorem processSample_sumSelf (stack : List Location) (value : Int) (stats : StatsMap) :
    sumSelf (processSample stack value stats) =
      sumSelf stats + ((leafLines stack).length : Int) * value := by
  unfold processSample
  cases stack with
  | nil => simp [leafLines, stackGet]
  | cons loc rest =>
      have hrange : List.range (loc :: rest).length =
          0 :: ((List.range rest.length).map Nat.succ) := by
        simp [List.length_cons, List.range_succ_eq_map]
      rw [hrange, List.foldl_cons]
      have hzero : ∀ (is : List Nat) (acc : StatsMap × List String), (∀ j ∈ is, j ≠ 0) →
          sumSelf ((is.foldl
            (fun acc i => (stackGet (loc :: rest) i).lines.foldl (updateLine (loc :: rest) value i) acc)
            acc)).1 = sumSelf acc.1 := by
        intro is
        induction is with
        | nil => intro acc _; rfl
        | cons j js ih =>
            intro acc hj
            rw [List.foldl_cons, ih _ (fun x hx => hj x (by simp [hx])), linesFold_sumSelf]
            simp [hj j (by simp)]
      rw [hzero _ _ (by
        intro j hj
        simp only [List.mem_map] at hj
        obtain ⟨a, -, ha⟩ := hj
        omega)]
      rw [linesFold_sumSelf]
      simp [leafLines, stackGet]

theorem sumSelf_withPercents (total : Int) (m : StatsMap) :
    sumSelf (withPercents total m) = sumSelf m := by
  induction m with
  | nil => rfl
  | cons p rest ih =>
      simp only [sumSelf, withPercents, List.map_cons, List.sum_cons] at ih ⊢
      omega

theorem foldl_add_sum (l : List Sample) (g : Sample → Int) (a : Int) :
    l.foldl (fun acc x => acc + g x) a = a + (l.map g).sum := by
  induction l generalizing a with
  | nil => simp
  | cons x xs ih => rw [List.foldl_cons, ih]; simp; ring

theorem computeTotalValue_eq (p : NormalizedProfile) (idx : Nat) :
    computeTotalValue p idx = (p.samples.map (fun s => s.values.getD idx 0)).sum := by
  unfold computeTotalValue
  rw [foldl_add_sum]
  simp

/-- Generic exact fold sum: if each step grows `sumSelf` by exactly `g x`, the
whole fold grows it by the sum of the increments. -/
theorem foldl_eq_sum {α : Type} (f : StatsMap → α → StatsMap) (g : α → Int) (l : List α)
    (hstep : ∀ st x, x ∈ l → sumSelf (f st x) = sumSelf st + g x) :
    ∀ acc, sumSelf (l.foldl f acc) = sumSelf acc + (l.map g).sum := by
  induction l with
  | nil => intro acc; simp
  | cons x xs ih =>
      intro acc
      rw [List.foldl_cons, List.map_cons, List.sum_cons,
        ih (fun st y hy => hstep st y (by simp [hy])) (f acc x), hstep acc x (by simp)]
      ring

/-- When every sample that counts (non-zero selected value) has exactly one
frame at its leaf location, each sample credits its value to `selfValue`
exactly once, so the sum of `selfValue` over the stats map telescopes to the
total of the selected column. -/
theorem aggregate_sumSelf_eq (p : NormalizedProfile) (idx : Nat) (total : Int)
    (hleaf : ∀ s ∈ p.samples, s.values.getD idx 0 ≠ 0 → (leafLines s.stack).length = 1) :
    sumSelf (aggregateFunctionStats p idx total) = computeTotalValue p idx := by
  unfold aggregateFunctionStats
  rw [sumSelf_withPercents, computeTotalValue_eq]
  have h := foldl_eq_sum
    (fun st sample =>
      let value := sample.values.getD idx 0
      if value = 0 then st else processSample sample.stack value st)
    (fun s => s.values.getD idx 0) p.samples ?step []
  case step =>
    intro st x hx
    show sumSelf (if x.values.getD idx 0 = 0 then st
      else processSample x.stack (x.values.getD idx 0) st) = sumSelf st + x.values.getD idx 0
    by_cases hz : x.values.getD idx 0 = 0
    · rw [if_pos hz, hz]
      ring
    · rw [if_neg hz, processSample_sumSelf, hleaf x hx hz]
      push_cast
      ring
  have h0 : sumSelf ([] : StatsMap) = 0 := rfl
  omega

/-- Invariant of the per-sample walk: relative to the map `m0` at the start of
the sample, a key's `cumulativeValue` has grown by `value` and its
`sampleCount` by 1 exactly when the key is in the `seenInStack` set. -/
def CumInv (m0 : StatsMap) (value : Int) (acc : StatsMap × List String) : Prop :=
  ∀ k, rowCumulative acc.1 k = rowCumulative m0 k + (if k ∈ acc.2 then value else 0) ∧
       rowCount acc.1 k = rowCount m0 k + (if k ∈ acc.2 then 1 else 0)

theorem updateLine_cumInv (stack : List Location) (value : Int) (i : Nat)
    (m0 : StatsMap) (acc : StatsMap × List String) (li : LineInfo)
    (h : CumInv m0 value acc) : CumInv m0 value (updateLine stack value i acc li) := by
  obtain ⟨s4, h1, -, h3, h4, h5⟩ := updateLine_row stack value i acc li
  intro k
  by_cases hk : k = statKey li.function li.line
  · subst hk
    have hcum : rowCumulative (updateLine stack value i acc li).1 (statKey li.function li.line) =
        s4.cumulativeValue := by
      rw [rowCumulative, h1, mapGet_mapSet_self]
      rfl
    have hcnt : rowCount (updateLine stack value i acc li).1 (statKey li.function li.line) =
        s4.sampleCount := by
      rw [rowCount, h1, mapGet_mapSet_self]
      rfl
    by_cases hseen : statKey li.function li.line ∈ acc.2
    · have hseen2 : statKey li.function li.line ∈ (updateLine stack value i acc li).2 := by
        rw [h5]; simp [hseen]
      rw [hcum, hcnt, h3, h4]
      have hc := (h (statKey li.function li.line)).1
      have hn := (h (statKey li.function li.line)).2
      simp only [hseen, if_pos] at hc hn
      simp [hseen, hseen2, hc, hn]
    · have hseen2 : statKey li.function li.line ∈ (updateLine stack value i acc li).2 := by
        rw [h5]; simp [hseen]
      rw [hcum, hcnt, h3, h4]
      have hc := (h (statKey li.function li.line)).1
      have hn := (h (statKey li.function li.line)).2
      simp only [hseen, if_neg, if_false, not_false_iff] at hc hn
      simp [hseen, hseen2, hc, hn]
  · have hget : mapGet (updateLine stack value i acc li).1 k = mapGet acc.1 k := by
      rw [h1]; exact mapGet_mapSet_ne _ _ _ _ hk
    have hseen2 : (k ∈ (updateLine stack value i acc li).2) ↔ k ∈ acc.2 := by
      rw [h5]
      by_cases hs : statKey li.function li.line ∈ acc.2 <;> simp [hs, hk]
    have hc := (h k).1
    have hn := (h k).2
    constructor
    · rw [rowCumulative, hget]
      by_cases hm : k ∈ acc.2
      · simp only [hm, if_pos] at hc
        simp [hseen2, hm, hc, rowCumulative] at hc ⊢
        exact hc
      · simp only [hm, if_neg, not_false_iff] at hc
        simp [hseen2, hm, rowCumulative] at hc ⊢
        exact hc
    · rw [rowCount, hget]
      by_cases hm : k ∈ acc.2
      · simp only [hm, if_pos] at hn
        simp [hseen2, hm, rowCount] at hn ⊢
        exact hn
      · simp only [hm, if_neg, not_false_iff] at hn
        simp [hseen2, hm, rowCount] at hn ⊢
        exact hn

/-- Within one sample, a row's cumulative value and sample count are
incremented at most once — together — however many stack positions and inline
frames reference the same identity key. -/
theorem processSample_rowOnce (stack : List Location) (value : Int) (stats : StatsMap)
    (k : String) :
    (rowCumulative (processSample stack value stats) k = rowCumulative stats k ∧
     rowCount (processSample stack value stats) k = rowCount stats k) ∨
    (rowCumulative (processSample stack value stats) k = rowCumulative stats k + value ∧
     rowCount (processSample stack value stats) k = rowCount stats k + 1) := by
  have hinv : CumInv stats value ((List.range stack.length).foldl
      (fun acc i => (stackGet stack i).lines.foldl (updateLine stack value i) acc)
      (stats, ([] : List String))) := by
    apply foldl_inv (CumInv stats value)
    · intro k'
      simp
    · intro acc i _ hacc
      apply foldl_inv (CumInv stats value) _ _ _ hacc
      intro acc' li _ hacc'
      exact updateLine_cumInv stack value i stats acc' li hacc'
  have h := hinv k
  unfold processSample
  by_cases hmem : k ∈ ((List.range stack.length).foldl
      (fun acc i => (stackGet stack i).lines.foldl (updateLine stack value i) acc)
      (stats, ([] : List String))).2
  · right
    simpa [hmem] using h
  · left
    simpa [hmem] using h

/-! ### Helper lemmas: the call tree -/

theorem insertPath_data_cumulative (v : Int) (t : CallTreeNode) (fs : List LineInfo) :
    (insertPath v t fs).data.cumulativeValue = t.data.cumulativeValue := by
  cases t with
  | node d ch => cases fs <;> rfl

theorem calculateTreePercentages_root (t : CallTreeNode) (total : Int) :
    (calculateTreePercentages t total).data.cumulativeValue = t.data.cumulativeValue ∧
    (calculateTreePercentages t total).data.cumulativePercent =
      percentOf t.data.cumulativeValue total := by
  cases t with
  | node d ch => exact ⟨rfl, rfl⟩

theorem percentOf_self (t : Int) (h : t ≠ 0) : percentOf t t = 100 := by
  unfold percentOf
  rw [div_self (by exact_mod_cast h)]
  norm_num

theorem buildCallTree_root (p : NormalizedProfile) (idx : Nat) (total : Int) :
    (buildCallTree p idx total).cumulativeValue = total ∧
    (buildCallTree p idx total).cumulativePercent = percentOf total total := by
  have hb : buildCallTree p idx total =
      calculateTreePercentages
        (p.samples.foldl
          (fun r sample =>
            let value := sample.values.getD idx 0
            if value = 0 then r else insertPath value r (framesOf sample.stack))
          (CallTreeNode.node
            { key := "(root)", name := "(root)", filename := "", line := 0, selfValue := 0,
              cumulativeValue := total, selfPercent := 0, cumulativePercent := 100 } [])) total := rfl
  have hfold : ∀ (l : List Sample) (t : CallTreeNode), t.data.cumulativeValue = total →
      (l.foldl (fun r sample =>
        let value := sample.values.getD idx 0
        if value = 0 then r else insertPath value r (framesOf sample.stack)) t).data.cumulativeValue = total := by
    intro l
    induction l with
    | nil => intro t ht; exact ht
    | cons s xs ih =>
        intro t ht
        rw [List.foldl_cons]
        apply ih
        show (if s.values.getD idx 0 = 0 then t
          else insertPath (s.values.getD idx 0) t (framesOf s.stack)).data.cumulativeValue = total
        by_cases hz : s.values.getD idx 0 = 0
        · rw [if_pos hz]; exact ht
        · rw [if_neg hz, insertPath_data_cumulative]; exact ht
  have hroot := hfold p.samples
    (CallTreeNode.node
      { key := "(root)", name := "(root)", filename := "", line := 0, selfValue := 0,
        cumulativeValue := total, selfPercent := 0, cumulativePercent := 100 } []) rfl
  rw [hb]
  constructor
  · show (calculateTreePercentages _ total).data.cumulativeValue = total
    rw [(calculateTreePercentages_root _ total).1]
    exact hroot
  · show (calculateTreePercentages _ total).data.cumulativePercent = percentOf total total
    rw [(calculateTreePercentages_root _ total).2, hroot]

theorem extractCriticalPaths_length_le (t : CallTreeNode) (maxPaths : Nat) :
    (extractCriticalPaths t maxPaths).length ≤ maxPaths := by
  unfold extractCriticalPaths
  simp [List.length_take]

/-! ### Helper lemmas: orchestrator case analysis -/

theorem analyzeProfile_ok_elim (p : NormalizedProfile) (opts : AnalyzeOptions) (r : AnalysisResult)
    (h : analyzeProfile p opts = Except.ok r) :
    validIndex p (resolvedIndex opts) ∧
    ((computeTotalValue p (resolvedIndex opts).toNat = 0 ∧
        r.totalValue = 0 ∧ r.functionStats = [] ∧ r.callTree = createEmptyNode "(root)" ∧
        r.hotspots = [] ∧ r.criticalPaths = []) ∨
     (computeTotalValue p (resolvedIndex opts).toNat ≠ 0 ∧
        r.totalValue = computeTotalValue p (resolvedIndex opts).toNat ∧
        r.functionStats = aggregateFunctionStats p (resolvedIndex opts).toNat r.totalValue ∧
        r.callTree = buildCallTree p (resolvedIndex opts).toNat r.totalValue ∧
        r.hotspots = identifyHotspots r.functionStats (opts.hotspotThreshold.getD (1 / 100)) ∧
        r.criticalPaths = extractCriticalPaths r.callTree 5)) := by
  unfold analyzeProfile at h
  by_cases hv : validIndex p (resolvedIndex opts)
  · rw [if_pos hv] at h
    refine ⟨hv, ?_⟩
    by_cases hz : computeTotalValue p (resolvedIndex opts).toNat = 0
    · rw [if_pos hz] at h
      cases h
      exact Or.inl ⟨hz, rfl, rfl, rfl, rfl, rfl⟩
    · rw [if_neg hz] at h
      cases h
      exact Or.inr ⟨hz, rfl, rfl, rfl, rfl, rfl⟩
  · rw [if_neg hv] at h
    exact absurd h (by simp)

/-! ### Claim C1 -/

/-- C1 (counterexample): the conservation claim fails as stated.  For the
profile with one sample of value 10 whose leaf location carries two inlined
frames, self value is credited to both frames, so the sum of `selfValue` over
the stats map is 20, strictly above `totalValue = 10`. -/
theorem claim1_counterexample :
    ∃ r, analyzeProfile exProfileInlined {} = Except.ok r ∧
      r.totalValue = 10 ∧ sumSelf r.functionStats = 20 ∧
      ¬ sumSelf r.functionStats ≤ r.totalValue :=
  ⟨_, rfl, by decide, by decide, by decide⟩

/-- C1 (amended): the root of the returned call tree has `cumulativeValue`
equal to `totalValue` for every profile, unconditionally; and whenever every
sample with a non-zero selected value has a stack whose leaf Location carries
exactly one Frame, the sum of `selfValue` over the rows of `functionStats`
equals `totalValue` exactly — in particular it is at most `totalValue`. -/
theorem claim1_conservation :
    (∀ (p : NormalizedProfile) (opts : AnalyzeOptions) (r : AnalysisResult),
      analyzeProfile p opts = Except.ok r → r.callTree.cumulativeValue = r.totalValue) ∧
    (∀ (p : NormalizedProfile) (opts : AnalyzeOptions) (r : AnalysisResult),
      analyzeProfile p opts = Except.ok r →
      (∀ s ∈ p.samples, s.values.getD (resolvedIndex opts).toNat 0 ≠ 0 →
        (leafLines s.stack).length = 1) →
      sumSelf r.functionStats = r.totalValue ∧ sumSelf r.functionStats ≤ r.totalValue) := by
  constructor
  · intro p opts r h
    obtain ⟨-, hcase⟩ := analyzeProfile_ok_elim p opts r h
    rcases hcase with ⟨hz, ht, -, hct, -, -⟩ | ⟨hz, ht, -, hct, -, -⟩
    · rw [ht, hct]
      rfl
    · rw [hct]
      exact (buildCallTree_root p _ _).1
  · intro p opts r h hleaf
    obtain ⟨-, hcase⟩ := analyzeProfile_ok_elim p opts r h
    rcases hcase with ⟨hz, ht, hfs, -, -, -⟩ | ⟨hz, ht, hfs, -, -, -⟩
    · rw [ht, hfs]
      exact ⟨rfl, by simp [sumSelf]⟩
    · have heq : sumSelf r.functionStats = r.totalValue := by
        rw [hfs, ht]
        exact aggregate_sumSelf_eq p _ _ hleaf
      exact ⟨heq, le_of_eq heq⟩

/-- C1 (witness): the unconditional root equality and the exact self-value
conservation evaluated on the concrete recursion profile. -/
theorem claim1_conservation_witness :
    ∃ r, analyzeProfile exProfileRecursion {} = Except.ok r ∧
      r.callTree.cumulativeValue = r.totalValue ∧ sumSelf r.functionStats = r.totalValue :=
  ⟨_, rfl, claim1_conservation.1 exProfileRecursion {} _ rfl,
    (claim1_conservation.2 exProfileRecursion {} _ rfl (by decide)).1⟩

/-! ### Claim C2 -/

/-- C2 (counterexample): in the degenerate zero-total case the returned root is
`createEmptyNode "(root)"`, whose `cumulativePercent` is 0, not 100. -/
theorem claim2_counterexample :
    ∃ r, analyzeProfile exProfileEmpty {} = Except.ok r ∧
      r.callTree.cumulativePercent = 0 ∧ ¬ r.callTree.cumulativePercent = 100 :=
  ⟨_, rfl, by decide, by decide⟩

/-- C2 (amended): the call-tree root always satisfies
`cumulativeValue = totalValue` (seeded directly from `totalValue`, not summed
from children); its `cumulativePercent` is 100 whenever `totalValue` is
non-zero, but 0 in the degenerate zero-total case. -/
theorem claim2_root_seeded (p : NormalizedProfile) (opts : AnalyzeOptions) (r : AnalysisResult)
    (h : analyzeProfile p opts = Except.ok r) :
    r.callTree.cumulativeValue = r.totalValue ∧
    (r.totalValue ≠ 0 → r.callTree.cumulativePercent = 100) ∧
    (r.totalValue = 0 → r.callTree.cumulativePercent = 0) := by
  obtain ⟨-, hcase⟩ := analyzeProfile_ok_elim p opts r h
  rcases hcase with ⟨hz, ht, -, hct, -, -⟩ | ⟨hz, ht, -, hct, -, -⟩
  · rw [ht, hct]
    exact ⟨rfl, fun hne => absurd rfl hne, fun _ => rfl⟩
  · rw [hct]
    rw [← ht] at hz
    refine ⟨(buildCallTree_root p _ _).1, fun _ => ?_, fun h0 => absurd h0 hz⟩
    rw [(buildCallTree_root p _ _).2]
    exact percentOf_self _ hz

/-- C2 (witness): on the concrete recursion profile (non-zero total) the root
carries `cumulativeValue = totalValue` and `cumulativePercent = 100`. -/
theorem claim2_root_seeded_witness :
    ∃ r, analyzeProfile exProfileRecursion {} = Except.ok r ∧
      r.callTree.cumulativeValue = r.totalValue ∧ r.callTree.cumulativePercent = 100 := by
  obtain ⟨hcum, h100, -⟩ := claim2_root_seeded exProfileRecursion {} _ rfl
  exact ⟨_, rfl, hcum, h100 (by decide)⟩

/-! ### Claim C3 -/

/-- C3: within one sample, a function row's `cumulativeValue` and `sampleCount`
are incremented at most once (together) per distinct identity key, however many
stack positions reference the function; in particular the sample
`[A, A, B]` with value 50 yields `cumulativeValue = 50` and `sampleCount = 1`
for `A`. -/
theorem claim3_recursion_dedup :
    (∀ (stack : List Location) (value : Int) (stats : StatsMap) (k : String),
      (rowCumulative (processSample stack value stats) k = rowCumulative stats k ∧
       rowCount (processSample stack value stats) k = rowCount stats k) ∨
      (rowCumulative (processSample stack value stats) k = rowCumulative stats k + value ∧
       rowCount (processSample stack value stats) k = rowCount stats k + 1)) ∧
    (∃ r, analyzeProfile exProfileRecursion {} = Except.ok r ∧
      rowCumulative r.functionStats (statKey (exFn "A") 10) = 50 ∧
      rowCount r.functionStats (statKey (exFn "A") 10) = 1) :=
  ⟨processSample_rowOnce, ⟨_, rfl, by decide, by decide⟩⟩

/-! ### Claim C4 -/

/-- C4 (counterexample): with index 0 the leaf (as the data model states), the
stacks `[X, A]` and `[X, B]` make `A` and `B` the root's children — the root
has no child keyed by `X`, contradicting the claimed shape. -/
theorem claim4_counterexample :
    ∃ r, analyzeProfile exProfileXLeaf {} = Except.ok r ∧
      mapGet r.callTree.children (statKey (exFn "X") 1) = none ∧
      r.callTree.children.map (fun q => q.2.data.name) = ["A", "B"] :=
  ⟨_, rfl, rfl, rfl⟩

/-- C4 (amended): for the two samples `[A, X]` and `[B, X]` (index 0 = leaf, so
`X` is the shared outermost caller), each of value 10, the call tree has a
single root child `X` with `cumulativeValue = 20` whose two children `A` and
`B` each have `cumulativeValue = 10`. -/
theorem claim4_tree_context :
    ∃ r, analyzeProfile exProfileXRoot {} = Except.ok r ∧
      r.callTree.children.map (fun q => q.1) = [statKey (exFn "X") 1] ∧
      ((mapGet r.callTree.children (statKey (exFn "X") 1)).map
        (fun n => n.cumulativeValue)) = some 20 ∧
      ((mapGet r.callTree.children (statKey (exFn "X") 1)).map
        (fun n => n.children.map (fun q => (q.1, q.2.cumulativeValue)))) =
        some [(statKey (exFn "A") 2, 10), (statKey (exFn "B") 3, 10)] :=
  ⟨_, rfl, rfl, rfl, rfl⟩

/-! ### Claim C5 -/

/-- C5: whenever the selected measurement column sums to zero (with a valid
column index), `analyzeProfile` returns — without any error — the fully-formed
degenerate result: empty stats map, empty root node, no hotspots, no critical
paths. -/
theorem claim5_degenerate (p : NormalizedProfile) (opts : AnalyzeOptions)
    (hvalid : validIndex p (resolvedIndex opts))
    (hzero : computeTotalValue p (resolvedIndex opts).toNat = 0) :
    analyzeProfile p opts = Except.ok
      { sampleType := p.sampleTypes.getD (resolvedIndex opts).toNat { type := "", unit := "" }
        totalValue := 0
        totalSamples := p.samples.length
        functionStats := []
        callTree := createEmptyNode "(root)"
        hotspots := []
        criticalPaths := []
        durationNanos := p.durationNanos
        period := p.period
        periodType := p.periodType } := by
  unfold analyzeProfile
  rw [if_pos hvalid, if_pos hzero]

/-- C5 (witness): the degenerate result on the concrete empty profile. -/
theorem claim5_degenerate_witness :
    analyzeProfile exProfileEmpty {} = Except.ok
      { sampleType := exSampleType, totalValue := 0, totalSamples := 0, functionStats := [],
        callTree := createEmptyNode "(root)", hotspots := [], criticalPaths := [],
        durationNanos := 0, period := 0, periodType := none } :=
  claim5_degenerate exProfileEmpty {} (by decide) (by decide)

/-! ### Helper lemmas: unfolding the critical-path traversal -/

/-- Leaf case of `traverse`: the recorded path carries the anchor percent. -/
theorem traverse_leaf (maxPaths : Nat) (n : CallTreeNode) (currentPath : List PathNode)
    (anchor : Rat) (paths : List CriticalPath) (h : n.children = []) :
    traverse maxPaths n currentPath anchor paths =
      paths ++ [⟨currentPath ++ [pathNodeOf n], anchor⟩] := by
  cases n with
  | node d ch =>
      cases ch with
      | nil =>
          rw [traverse]
          simp [CallTreeNode.children, CallTreeNode.data, pathNodeOf]
      | cons c cs => simp [CallTreeNode.children] at h

theorem traverseOthers_nil (maxPaths : Nat) (newPath : List PathNode)
    (paths : List CriticalPath) :
    traverseOthers maxPaths [] newPath paths = paths := by
  rw [traverseOthers]

/-- Interior case of `traverse`: the hottest child continues with the same
anchor, the remaining sorted children are handed to the sibling loop. -/
theorem traverse_node (maxPaths : Nat) (n : CallTreeNode) (currentPath : List PathNode)
    (anchor : Rat) (paths : List CriticalPath) (c : CallTreeNode) (cs : List CallTreeNode)
    (d : NodeData) (q : String × CallTreeNode) (qs : List (String × CallTreeNode))
    (hn : n = CallTreeNode.node d (q :: qs))
    (hs : sortChildren (q :: qs) = c :: cs) :
    traverse maxPaths n currentPath anchor paths =
      traverseOthers maxPaths cs (currentPath ++ [pathNodeOf n])
        (traverse maxPaths c (currentPath ++ [pathNodeOf n]) anchor paths) := by
  subst hn
  rw [traverse]
  simp only [CallTreeNode.children, CallTreeNode.data, pathNodeOf]
  split
  · next heq =>
      rw [hs] at heq
      exact absurd heq (by simp)
  · next hottest rest heq =>
      rw [hs] at heq
      injection heq with h1 h2
      subst h1
      subst h2
      rfl

/-! ### Helper lemmas: concrete critical-path extraction on the P/Q/L tree -/

theorem sortChildren_exRootPQ : sortChildren exRootPQ.children = [exNodeP, exNodeQ] := by
  unfold sortChildren
  have hm : exRootPQ.children.map (fun p => p.2) = [exNodeP, exNodeQ] := rfl
  rw [hm]
  exact List.mergeSort_of_sorted (by decide)

theorem sortChildren_exNodeQ : sortChildren exNodeQ.children = [exNodeL] := by
  unfold sortChildren
  have hm : exNodeQ.children.map (fun p => p.2) = [exNodeL] := rfl
  rw [hm, List.mergeSort_singleton]

theorem traverse_exNodeP : traverse 5 exNodeP [] 70 [] = [⟨[pathNodeOf exNodeP], 70⟩] := by
  rw [traverse_leaf 5 exNodeP [] 70 [] rfl]
  rfl

theorem traverse_exNodeQ : traverse 5 exNodeQ [] 30 [⟨[pathNodeOf exNodeP], 70⟩] =
    [⟨[pathNodeOf exNodeP], 70⟩, ⟨[pathNodeOf exNodeQ, pathNodeOf exNodeL], 30⟩] := by
  rw [traverse_node 5 exNodeQ [] 30 [⟨[pathNodeOf exNodeP], 70⟩] exNodeL []
    exNodeQ.data ("L", exNodeL) [] rfl sortChildren_exNodeQ]
  rw [traverse_leaf 5 exNodeL _ _ _ rfl]
  rw [traverseOthers_nil]
  rfl

theorem extractCriticalPaths_exRootPQ : extractCriticalPaths exRootPQ 5 =
    [⟨[pathNodeOf exNodeP], 70⟩, ⟨[pathNodeOf exNodeQ, pathNodeOf exNodeL], 30⟩] := by
  unfold extractCriticalPaths
  rw [sortChildren_exRootPQ]
  have hfold : ([exNodeP, exNodeQ].take 5).foldl
      (fun ps child => traverse 5 child [] child.cumulativePercent ps) ([] : List CriticalPath) =
      [⟨[pathNodeOf exNodeP], 70⟩, ⟨[pathNodeOf exNodeQ, pathNodeOf exNodeL], 30⟩] := by
    show traverse 5 exNodeQ [] 30 (traverse 5 exNodeP [] 70 []) = _
    rw [traverse_exNodeP, traverse_exNodeQ]
  show ((((([exNodeP, exNodeQ]).take 5).foldl
      (fun ps child => traverse 5 child [] child.cumulativePercent ps)
      []).mergeSort (fun a b => decide (b.cumulativePercent ≤ a.cumulativePercent))).take 5) = _
  rw [hfold]
  rw [List.mergeSort_of_sorted (by decide)]
  rfl

/-! ### Claim C6 -/

/-- C6: `analyzeProfile` fails if and only if the resolved measurement-column
index (default 0, negative indices included) is out of range of the declared
measurement kinds, and the only error it ever produces is the invalid-index
message. -/
theorem claim6_invalid_index (p : NormalizedProfile) (opts : AnalyzeOptions) :
    ((∃ e, analyzeProfile p opts = Except.error e) ↔ ¬ validIndex p (resolvedIndex opts)) ∧
    (∀ e, analyzeProfile p opts = Except.error e →
      e = "Sample type index " ++ toString (resolvedIndex opts) ++ " not found") := by
  by_cases hv : validIndex p (resolvedIndex opts)
  · have hok : ∃ r, analyzeProfile p opts = Except.ok r := by
      by_cases hz : computeTotalValue p (resolvedIndex opts).toNat = 0
      · exact ⟨_, by unfold analyzeProfile; rw [if_pos hv, if_pos hz]⟩
      · exact ⟨_, by unfold analyzeProfile; rw [if_pos hv, if_neg hz]⟩
    obtain ⟨r, hr⟩ := hok
    constructor
    · constructor
      · rintro ⟨e, he⟩
        rw [hr] at he
        simp at he
      · intro hcontra
        exact absurd hv hcontra
    · intro e he
      rw [hr] at he
      simp at he
  · have herr : analyzeProfile p opts =
        Except.error ("Sample type index " ++ toString (resolvedIndex opts) ++ " not found") := by
      unfold analyzeProfile
      rw [if_neg hv]
    refine ⟨⟨fun _ => hv, fun _ => ⟨_, herr⟩⟩, ?_⟩
    intro e he
    rw [herr] at he
    injection he with h
    exact h.symm

/-- C6 (witness): on a profile with no measurement kinds, index 0 is invalid
and the invalid-index error is raised. -/
theorem claim6_invalid_index_witness :
    analyzeProfile exProfileNoTypes {} = Except.error "Sample type index 0 not found" := by
  obtain ⟨⟨-, hmk⟩, hmsg⟩ := claim6_invalid_index exProfileNoTypes {}
  obtain ⟨e, he⟩ := hmk (by decide)
  have hem := hmsg e he
  rw [hem] at he
  exact he

/-! ### Claim C7 -/

/-- C7: a recorded critical path carries the anchor percentage fixed when its
traversal started, not the leaf's own percent (the leaf case of `traverse`
records `anchor`); concretely, for the root with children `P` (70%, childless)
and `Q` (30%, one leaf child `L`), extraction records `[P]` with branch
percent 70 and `[Q, L]` with branch percent 30. -/
theorem claim7_anchor :
    (∀ (maxPaths : Nat) (n : CallTreeNode) (currentPath : List PathNode) (anchor : Rat)
        (paths : List CriticalPath), n.children = [] →
      traverse maxPaths n currentPath anchor paths =
        paths ++ [⟨currentPath ++ [pathNodeOf n], anchor⟩]) ∧
    (extractCriticalPaths exRootPQ 5).map
        (fun p => (p.path.map (fun q => q.name), p.cumulativePercent)) =
      [(["P"], 70), (["Q", "L"], 30)] := by
  constructor
  · exact traverse_leaf
  · rw [extractCriticalPaths_exRootPQ]
    rfl

/-- C7 (witness): the leaf-records-anchor equation evaluated at the concrete
childless node `P` with anchor 70. -/
theorem claim7_anchor_witness :
    traverse 5 exNodeP [] 70 [] = [⟨[pathNodeOf exNodeP], 70⟩] := by
  have h := claim7_anchor.1 5 exNodeP [] 70 [] rfl
  simpa using h

/-! ### Claim C8 -/

/-- The hotspot ranker written as filter-map-sort (the push loop of the source
is exactly a filter followed by a map). -/
theorem identifyHotspots_eq (functionStats : StatsMap) (threshold : Rat) :
    identifyHotspots functionStats threshold =
      (((functionStats.map (fun p => p.2)).filter
        (fun stats => decide (threshold * 100 ≤ stats.selfPercent))).map toHotspot).mergeSort
        (fun a b => decide (b.selfPercent ≤ a.selfPercent)) := rfl

/-- C8: the hotspot list contains exactly the hotspot projections of the stats
rows with `selfPercent ≥ threshold * 100`, and adjacent entries are in
non-increasing `selfPercent` order. -/
theorem claim8_hotspots (functionStats : StatsMap) (threshold : Rat) :
    (∀ h : Hotspot, h ∈ identifyHotspots functionStats threshold ↔
      ∃ s, s ∈ functionStats.map (fun p => p.2) ∧ threshold * 100 ≤ s.selfPercent ∧
        h = toHotspot s) ∧
    (∀ i : Nat, i + 1 < (identifyHotspots functionStats threshold).length →
      ((identifyHotspots functionStats threshold).getD (i + 1) defHotspot).selfPercent ≤
      ((identifyHotspots functionStats threshold).getD i defHotspot).selfPercent) := by
  constructor
  · intro h
    rw [identifyHotspots_eq, List.mem_mergeSort]
    simp only [List.mem_map, List.mem_filter, decide_eq_true_eq]
    constructor
    · rintro ⟨s, ⟨hs, hcond⟩, heq⟩
      exact ⟨s, hs, hcond, heq.symm⟩
    · rintro ⟨s, hs, hcond, heq⟩
      exact ⟨s, ⟨hs, hcond⟩, heq.symm⟩
  · intro i hi
    have htrans : ∀ (a b c : Hotspot),
        (fun a b : Hotspot => decide (b.selfPercent ≤ a.selfPercent)) a b →
        (fun a b : Hotspot => decide (b.selfPercent ≤ a.selfPercent)) b c →
        (fun a b : Hotspot => decide (b.selfPercent ≤ a.selfPercent)) a c := by
      intro a b c hab hbc
      simp only [decide_eq_true_eq] at hab hbc ⊢
      exact le_trans hbc hab
    have htotal : ∀ (a b : Hotspot),
        ((fun a b : Hotspot => decide (b.selfPercent ≤ a.selfPercent)) a b) ||
        ((fun a b : Hotspot => decide (b.selfPercent ≤ a.selfPercent)) b a) := by
      intro a b
      simp only [Bool.or_eq_true, decide_eq_true_eq]
      exact le_total b.selfPercent a.selfPercent
    have hp := List.sorted_mergeSort htrans htotal
      (((functionStats.map (fun p => p.2)).filter
        (fun stats => decide (threshold * 100 ≤ stats.selfPercent))).map toHotspot)
    rw [identifyHotspots_eq] at hi ⊢
    rw [List.getD_eq_getElem _ defHotspot (by omega), List.getD_eq_getElem _ defHotspot (by omega)]
    have := List.pairwise_iff_getElem.mp hp i (i + 1) (by omega) (by omega) (by omega)
    simpa using this

/-- C8 (witness): the hotspot ordering evaluated on the concrete two-row stats
map with the default threshold. -/
theorem claim8_hotspots_witness :
    ((identifyHotspots exStatsMap (1 / 100)).getD 1 defHotspot).selfPercent ≤
    ((identifyHotspots exStatsMap (1 / 100)).getD 0 defHotspot).selfPercent := by
  apply (claim8_hotspots exStatsMap (1 / 100)).2 0
  have hA : ((1 : Rat) ≤ exStatsA.selfPercent) := by norm_num [exStatsA]
  have hB : ((1 : Rat) ≤ exStatsB.selfPercent) := by norm_num [exStatsB]
  have hfil : ((exStatsMap.map (fun p => p.2)).filter
      (fun stats => decide ((1 : Rat) / 100 * 100 ≤ stats.selfPercent))) =
      [exStatsA, exStatsB] := by
    simp [exStatsMap, List.filter, hA, hB]
  rw [identifyHotspots_eq, List.length_mergeSort, hfil]
  simp

/-! ### Claim C9 -/

/-- C9: for every unit string that lowercases to a time unit (`nanoseconds` or
its alias `ns`), `formatValue` applies the fixed thresholds `≥1e9 → s`,
`≥1e6 → ms`, `≥1e3 → µs`, else raw `ns`; every byte unit scales to
`GB`/`MB`/`KB` at the same thresholds else raw `B`; every count unit (`count`
or its alias `samples`) scales to `M`/`K` else the raw integer; and every other
unit falls back to `"<value> <unit>"`.  Concretely
`formatValue 1500000000 "nanoseconds" = "1.50s"`,
`formatValue 1500 "bytes" = "1.50 KB"`, `formatValue 1500 "count" = "1.50K"`,
with the aliases and case-insensitive matching exercised by
`formatValue 2000000 "NS" = "2.00ms"` and
`formatValue 1500 "SAMPLES" = "1.50K"`, and the fallback by
`formatValue 42 "widgets" = "42 widgets"`. -/
theorem claim9_format_human :
    (∀ (v : Int) (unit : String),
      (strToLower unit = "nanoseconds" ∨ strToLower unit = "ns") → 1000000000 ≤ v →
      formatValue v unit = toFixed2 v 1000000000 ++ "s") ∧
    (∀ (v : Int) (unit : String),
      (strToLower unit = "nanoseconds" ∨ strToLower unit = "ns") → 1000000 ≤ v →
      v < 1000000000 → formatValue v unit = toFixed2 v 1000000 ++ "ms") ∧
    (∀ (v : Int) (unit : String),
      (strToLower unit = "nanoseconds" ∨ strToLower unit = "ns") → 1000 ≤ v → v < 1000000 →
      formatValue v unit = toFixed2 v 1000 ++ "µs") ∧
    (∀ (v : Int) (unit : String),
      (strToLower unit = "nanoseconds" ∨ strToLower unit = "ns") → v < 1000 →
      formatValue v unit = toString v ++ "ns") ∧
    (∀ (v : Int) (unit : String), strToLower unit = "bytes" → 1000000000 ≤ v →
      formatValue v unit = toFixed2 v 1000000000 ++ " GB") ∧
    (∀ (v : Int) (unit : String), strToLower unit = "bytes" → 1000000 ≤ v →
      v < 1000000000 → formatValue v unit = toFixed2 v 1000000 ++ " MB") ∧
    (∀ (v : Int) (unit : String), strToLower unit = "bytes" → 1000 ≤ v → v < 1000000 →
      formatValue v unit = toFixed2 v 1000 ++ " KB") ∧
    (∀ (v : Int) (unit : String), strToLower unit = "bytes" → v < 1000 →
      formatValue v unit = toString v ++ " B") ∧
    (∀ (v : Int) (unit : String),
      (strToLower unit = "count" ∨ strToLower unit = "samples") → 1000000 ≤ v →
      formatValue v unit = toFixed2 v 1000000 ++ "M") ∧
    (∀ (v : Int) (unit : String),
      (strToLower unit = "count" ∨ strToLower unit = "samples") → 1000 ≤ v → v < 1000000 →
      formatValue v unit = toFixed2 v 1000 ++ "K") ∧
    (∀ (v : Int) (unit : String),
      (strToLower unit = "count" ∨ strToLower unit = "samples") → v < 1000 →
      formatValue v unit = toString v) ∧
    (∀ (v : Int) (unit : String), strToLower unit ≠ "nanoseconds" → strToLower unit ≠ "ns" →
      strToLower unit ≠ "bytes" → strToLower unit ≠ "count" → strToLower unit ≠ "samples" →
      formatValue v unit = toString v ++ " " ++ unit) ∧
    formatValue 1500000000 "nanoseconds" = "1.50s" ∧
    formatValue 1500 "bytes" = "1.50 KB" ∧
    formatValue 1500 "count" = "1.50K" ∧
    formatValue 2000000 "NS" = "2.00ms" ∧
    formatValue 1500 "SAMPLES" = "1.50K" ∧
    formatValue 42 "widgets" = "42 widgets" := by
  refine ⟨?_, ?_, ?_, ?_, ?_, ?_, ?_, ?_, ?_, ?_, ?_, ?_,
    by decide, by decide, by decide, by decide, by decide, by decide⟩
  · intro v unit hl h
    simp only [formatValue]
    rw [if_pos hl, if_pos h]
  · intro v unit hl h1 h2
    simp only [formatValue]
    rw [if_pos hl, if_neg (show ¬ (v ≥ 1000000000) by omega), if_pos h1]
  · intro v unit hl h1 h2
    simp only [formatValue]
    rw [if_pos hl, if_neg (show ¬ (v ≥ 1000000000) by omega),
      if_neg (show ¬ (v ≥ 1000000) by omega), if_pos h1]
  · intro v unit hl h1
    simp only [formatValue]
    rw [if_pos hl, if_neg (show ¬ (v ≥ 1000000000) by omega),
      if_neg (show ¬ (v ≥ 1000000) by omega), if_neg (show ¬ (v ≥ 1000) by omega)]
  · intro v unit hl h
    simp only [formatValue]
    rw [if_neg (show ¬ (strToLower unit = "nanoseconds" ∨ strToLower unit = "ns") by
      rw [hl]; decide), if_pos hl, if_pos h]
  · intro v unit hl h1 h2
    simp only [formatValue]
    rw [if_neg (show ¬ (strToLower unit = "nanoseconds" ∨ strToLower unit = "ns") by
      rw [hl]; decide), if_pos hl, if_neg (show ¬ (v ≥ 1000000000) by omega), if_pos h1]
  · intro v unit hl h1 h2
    simp only [formatValue]
    rw [if_neg (show ¬ (strToLower unit = "nanoseconds" ∨ strToLower unit = "ns") by
      rw [hl]; decide), if_pos hl, if_neg (show ¬ (v ≥ 1000000000) by omega),
      if_neg (show ¬ (v ≥ 1000000) by omega), if_pos h1]
  · intro v unit hl h1
    simp only [formatValue]
    rw [if_neg (show ¬ (strToLower unit = "nanoseconds" ∨ strToLower unit = "ns") by
      rw [hl]; decide), if_pos hl, if_neg (show ¬ (v ≥ 1000000000) by omega),
      if_neg (show ¬ (v ≥ 1000000) by omega), if_neg (show ¬ (v ≥ 1000) by omega)]
  · intro v unit hl h
    rcases hl with hc | hc <;>
    · simp only [formatValue]
      rw [if_neg (show ¬ (strToLower unit = "nanoseconds" ∨ strToLower unit = "ns") by
        rw [hc]; decide), if_neg (show ¬ (strToLower unit = "bytes") by rw [hc]; decide),
        if_pos (show strToLower unit = "count" ∨ strToLower unit = "samples" by
          rw [hc]; decide), if_pos h]
  · intro v unit hl h1 h2
    rcases hl with hc | hc <;>
    · simp only [formatValue]
      rw [if_neg (show ¬ (strToLower unit = "nanoseconds" ∨ strToLower unit = "ns") by
        rw [hc]; decide), if_neg (show ¬ (strToLower unit = "bytes") by rw [hc]; decide),
        if_pos (show strToLower unit = "count" ∨ strToLower unit = "samples" by
          rw [hc]; decide), if_neg (show ¬ (v ≥ 1000000) by omega), if_pos h1]
  · intro v unit hl h1
    rcases hl with hc | hc <;>
    · simp only [formatValue]
      rw [if_neg (show ¬ (strToLower unit = "nanoseconds" ∨ strToLower unit = "ns") by
        rw [hc]; decide), if_neg (show ¬ (strToLower unit = "bytes") by rw [hc]; decide),
        if_pos (show strToLower unit = "count" ∨ strToLower unit = "samples" by
          rw [hc]; decide), if_neg (show ¬ (v ≥ 1000000) by omega),
        if_neg (show ¬ (v ≥ 1000) by omega)]
  · intro v unit h1 h2 h3 h4 h5
    simp only [formatValue]
    rw [if_neg (show ¬ (strToLower unit = "nanoseconds" ∨ strToLower unit = "ns") by
      simp [h1, h2]), if_neg h3,
      if_neg (show ¬ (strToLower unit = "count" ∨ strToLower unit = "samples") by
        simp [h4, h5])]

/-- C9 (witness): the first threshold equation applied at the concrete input
`1_500_000_000` nanoseconds. -/
theorem claim9_format_human_witness :
    formatValue 1500000000 "nanoseconds" = toFixed2 1500000000 1000000000 ++ "s" :=
  claim9_format_human.1 1500000000 "nanoseconds" (Or.inl (by decide)) (by decide)

/-! ### Claim C10 -/

/-- C10: every `analyzeProfile` result contains at most 5 critical paths — the
orchestrator hard-codes `maxPaths = 5` and the extractor truncates its sorted
output to that bound. -/
theorem claim10_bounded_paths (p : NormalizedProfile) (opts : AnalyzeOptions)
    (r : AnalysisResult) (h : analyzeProfile p opts = Except.ok r) :
    r.criticalPaths.length ≤ 5 := by
  obtain ⟨-, hcase⟩ := analyzeProfile_ok_elim p opts r h
  rcases hcase with ⟨-, -, -, -, -, hcp⟩ | ⟨-, -, -, -, -, hcp⟩
  · rw [hcp]
    simp
  · rw [hcp]
    exact extractCriticalPaths_length_le _ 5

/-- C10 (witness): the bound evaluated on the concrete recursion profile. -/
theorem claim10_bounded_paths_witness :
    ∃ r, analyzeProfile exProfileRecursion {} = Except.ok r ∧ r.criticalPaths.length ≤ 5 :=
  ⟨_, rfl, claim10_bounded_paths exProfileRecursion {} _ rfl⟩

end PprofToMd
